import Mathlib

/-!
Verification of the virtual pipe layer of the preview2 host I/O code
(`crates/wasi/src/preview2/pipe.rs`).

Bytes are modelled as `Nat` and byte buffers as `List Nat`.  The bounded
`tokio::sync::mpsc` channel of `Vec<u8>` chunks is modelled as an explicit
FIFO queue of chunks (`List (List Nat)`) together with boolean flags for a
dropped producer or consumer endpoint.  A single non-blocking poll of a
wrapped asynchronous reader is modelled by an oracle argument describing
the outcome of that poll (`Poll::Pending`, `Poll::Ready(Ok(..))` with the
bytes it filled, or `Poll::Ready(Err(..))`).  Rust panics — the `expect`
calls and the out-of-range slice index — are a distinct result
constructor `Crash`, kept apart from recoverable `Err` results.
-/

namespace PipeSpec

/-- Stream lifecycle marker, mirroring `StreamState` with variants
`Open` and `Closed`. -/
inductive StreamState
  | Open
  | Closed
deriving DecidableEq, Repr

/-- Mirror of `StreamState::is_closed`. -/
def StreamState.is_closed : StreamState → Bool
  | .Closed => true
  | .Open => false

/-- Consumer endpoint of the bounded channel pipe (`InputPipe`): stream
state, pending buffer, and the receiving half of the channel, the latter
modelled as the queue of not-yet-received chunks plus a flag telling
whether the producer endpoint has been dropped. -/
structure InputPipe where
  state : StreamState
  buffer : List Nat
  queue : List (List Nat)
  disconnected : Bool
deriving DecidableEq, Repr

/-- Mirror of `InputPipe::read`.  `destLen` is the length of the caller's
destination slice.  Returns the bytes written into the destination (whose
length is the reported byte count), the reported `StreamState`, and the
endpoint after the call.

The body follows the source line by line: first `read_from_buffer =
min(buffer.len, dest.len)` bytes are copied out of the pending buffer and
the buffer keeps its remainder; if the destination still has room, one
`try_recv` attempt is made, whose three outcomes (chunk available, channel
empty, channel disconnected) are read off the queue model. -/
def inputRead (ip : InputPipe) (destLen : Nat) :
    (List Nat × StreamState) × InputPipe :=
  let k := min ip.buffer.length destLen
  let taken := ip.buffer.take k
  let buf1 := ip.buffer.drop k
  if k < destLen then
    match ip.queue with
    | msg :: rest =>
      let room := destLen - k
      if msg.length < room then
        ((taken ++ msg, ip.state), { ip with buffer := buf1, queue := rest })
      else
        ((taken ++ msg.take room, ip.state),
          { ip with buffer := buf1 ++ msg.drop room, queue := rest })
    | [] =>
      if ip.disconnected then
        ((taken, StreamState.Closed),
          { ip with buffer := buf1, state := StreamState.Closed })
      else
        ((taken, ip.state), { ip with buffer := buf1 })
  else
    ((taken, ip.state), { ip with buffer := buf1 })

/-- Mirror of `InputPipe::ready`: one `recv().await`.  `none` means the
call would suspend forever (channel empty, producer still alive); a
received chunk is appended to the pending buffer; a disconnect sets the
state to `Closed`. -/
def inputReady (ip : InputPipe) : Option InputPipe :=
  match ip.queue with
  | c :: rest => some { ip with buffer := ip.buffer ++ c, queue := rest }
  | [] =>
    if ip.disconnected then some { ip with state := StreamState.Closed }
    else none

/-- Adapter around an arbitrary asynchronous byte source (`WrappedRead`):
stream state and pending buffer.  The underlying reader itself is left
abstract; each call takes an oracle describing what the reader did. -/
structure WrappedRead where
  state : StreamState
  buffer : List Nat
deriving DecidableEq, Repr

/-- Outcome of the single `poll_read` attempt made by `WrappedRead::read`
with the no-op waker: the poll was `Pending`, or it completed having
filled the given bytes, or it completed with an error. -/
inductive PollRes
  | pending
  | readyOk (bs : List Nat)
  | readyErr
deriving DecidableEq, Repr

/-- Result of a `read` call on an input endpoint: `Ok` carries the bytes
delivered to the destination and the reported stream state; `Err` is a
propagated error from the underlying source; `Crash` is a Rust panic
(the out-of-range slice index of the double advance). -/
inductive RdResult
  | Ok (dest : List Nat) (st : StreamState)
  | Err
  | Crash (msg : String)
deriving DecidableEq, Repr

/-- Mirror of `WrappedRead::read`.  First `dest.write(&self.buffer)`
copies `l = min(buffer.len, dest.len)` bytes and — because
`impl Write for &mut [u8]` replaces the slice with its unwritten tail —
already advances `dest` to length `dest.len - l`; the copied prefix is
drained from the pending buffer.  If the buffer is still non-empty the
call returns `(l, Open)` immediately; if the state is already closed it
returns `(l, Closed)`.  Otherwise `let mut dest = &mut dest[l..]`
advances a second time: it panics (`Crash`) when `l > dest.len - l`, and
otherwise leaves `dest.len - 2*l` bytes of room for the single
`poll_read` attempt — whose polled bytes land at offset `2*l` of the
caller's original destination; this model records the delivered bytes in
order (copied prefix, then polled bytes) without their positions.
Exactly as in the source, `bytes_read == 0` — which includes the
`Pending` outcome, whose `readbuf` stays unfilled — sets the state to
`Closed`. -/
def wrappedRead (wr : WrappedRead) (destLen : Nat) (poll : PollRes) :
    RdResult × WrappedRead :=
  let l := min wr.buffer.length destLen
  let written := wr.buffer.take l
  let buf1 := wr.buffer.drop l
  if buf1 ≠ [] then
    (RdResult.Ok written StreamState.Open, { wr with buffer := buf1 })
  else if wr.state.is_closed then
    (RdResult.Ok written StreamState.Closed, { wr with buffer := buf1 })
  else if destLen - l < l then
    (RdResult.Crash "range start index out of range for slice",
      { wr with buffer := buf1 })
  else if destLen - l - l ≠ 0 then
    match poll with
    | .pending =>
      (RdResult.Ok written StreamState.Closed,
        { wr with buffer := buf1, state := StreamState.Closed })
    | .readyErr => (RdResult.Err, { wr with buffer := buf1 })
    | .readyOk bs =>
      if bs.length = 0 then
        (RdResult.Ok written StreamState.Closed,
          { wr with buffer := buf1, state := StreamState.Closed })
      else
        (RdResult.Ok (written ++ bs) wr.state, { wr with buffer := buf1 })
  else
    (RdResult.Ok written wr.state, { wr with buffer := buf1 })

/-- Result of a `ready` call. -/
inductive RdyResult
  | Ok
  | Err
deriving DecidableEq, Repr

/-- Mirror of `WrappedRead::ready`.  The oracle `res` is the outcome of
the full suspending `read_buf` into 1024 bytes of fresh scratch space:
`Except.ok bs` completed having read the bytes `bs`, `Except.error`
failed.  A completed zero-byte read sets `Closed`.  On an error the
pending buffer has already been taken out of `self` and is lost. -/
def wrappedReady (wr : WrappedRead) (res : Except Unit (List Nat)) :
    RdyResult × WrappedRead :=
  if wr.state.is_closed then (RdyResult.Ok, wr)
  else
    match res with
    | .error _ => (RdyResult.Err, { wr with buffer := [] })
    | .ok bs =>
      if bs.length = 0 then (RdyResult.Ok, { wr with state := StreamState.Closed })
      else (RdyResult.Ok, { wr with buffer := wr.buffer ++ bs })

/-- One event on a `WrappedRead` endpoint: a `read` call with a
destination length and the poll oracle, or a `ready` call with its
oracle. -/
inductive WEv
  | rd (destLen : Nat) (poll : PollRes)
  | rdy (res : Except Unit (List Nat))

/-- The endpoint after one event. -/
def wstep (wr : WrappedRead) : WEv → WrappedRead
  | .rd d p => (wrappedRead wr d p).2
  | .rdy r => (wrappedReady wr r).2

/-- The endpoint after a sequence of events. -/
def wrun (wr : WrappedRead) : List WEv → WrappedRead
  | [] => wr
  | e :: es => wrun (wstep wr e) es

/-- One event on an `InputPipe` endpoint: a `read` call with a
destination length, or a `ready` call (which leaves the endpoint
unchanged when it would suspend). -/
inductive IEv
  | rd (destLen : Nat)
  | rdy

/-- The endpoint after one event. -/
def istep (ip : InputPipe) : IEv → InputPipe
  | .rd d => (inputRead ip d).2
  | .rdy =>
    match inputReady ip with
    | some ip' => ip'
    | none => ip

/-- The endpoint after a sequence of events. -/
def irun (ip : InputPipe) : List IEv → InputPipe
  | [] => ip
  | e :: es => irun (istep ip e) es

/-- The two-state sender of the output endpoint (`SenderState`): either a
held capacity reservation (`Writable`, an `OwnedPermit`) or the plain
channel handle (`Channel`). -/
inductive SenderState
  | Writable
  | Channel
deriving DecidableEq, Repr

/-- Producer endpoint of the bounded channel pipe (`OutputPipe`): pending
buffer and the optional sender (`None` only after an error path failed to
restore it).  The sending half of the channel is modelled in place: the
queue of in-flight chunks, the queue bound, and whether the consumer
endpoint has been dropped. -/
structure OutputPipe where
  buffer : List Nat
  channel : Option SenderState
  queue : List (List Nat)
  bound : Nat
  receiverDropped : Bool
deriving DecidableEq, Repr

/-- Result of a `write` call on an output endpoint: accepted byte count,
recoverable error, or a Rust panic (`expect`). -/
inductive WriteResult
  | Ok (n : Nat)
  | Err (msg : String)
  | Crash (msg : String)
deriving DecidableEq, Repr

/-- True only for the `Ok` constructor. -/
def WriteResult.isOk : WriteResult → Bool
  | .Ok _ => true
  | _ => false

/-- Mirror of `OutputPipe::write`.  The pending buffer is taken and
extended with `buf`; then the channel state is taken: a held permit sends
the whole pending buffer (always succeeds, reverts to the plain handle);
a plain handle makes one `try_send` attempt whose outcomes are success,
`Full` (pending buffer retained) or `Closed` (early return with the
error, leaving `self.channel` empty — the taken channel is never put
back).  A missing channel state panics on the `expect`. -/
def outputWrite (op : OutputPipe) (buf : List Nat) :
    WriteResult × OutputPipe :=
  let bytes := op.buffer ++ buf
  match op.channel with
  | none => (WriteResult.Crash "Missing channel state", { op with buffer := [] })
  | some .Writable =>
    (WriteResult.Ok buf.length,
      { op with
          buffer := [], queue := op.queue ++ [bytes],
          channel := some SenderState.Channel })
  | some .Channel =>
    if op.receiverDropped then
      (WriteResult.Err "pipe closed", { op with buffer := [], channel := none })
    else if op.queue.length < op.bound then
      (WriteResult.Ok buf.length,
        { op with buffer := [], queue := op.queue ++ [bytes] })
    else
      (WriteResult.Ok buf.length, { op with buffer := bytes })

/-- Result of a `ready` call on the output endpoint: success, recoverable
error, Rust panic, or `Block` — the call suspends with no one to wake it
(queue full in this standalone model, where no consumer drains it). -/
inductive OReadyResult
  | Ok
  | Err (msg : String)
  | Crash (msg : String)
  | Block
deriving DecidableEq, Repr

/-- Mirror of `OutputPipe::flush` (the first half of `ready`): if the
pending buffer is non-empty it is taken and sent with `blocking_send` —
via the permit when one is held, otherwise via a suspending `send` that
panics on the `expect` when the consumer is gone (and blocks while the
queue is full).  `none` in the first component means flushing finished
and `ready` continues. -/
def outputFlush (op : OutputPipe) : Option OReadyResult × OutputPipe :=
  if op.buffer = [] then (none, op)
  else
    match op.channel with
    | none =>
      (some (OReadyResult.Crash "Missing channel state"), { op with buffer := [] })
    | some .Writable =>
      (none,
        { op with
            buffer := [], queue := op.queue ++ [op.buffer],
            channel := some SenderState.Channel })
    | some .Channel =>
      if op.receiverDropped then
        (some (OReadyResult.Crash "fixme: handle closed write end later"),
          { op with buffer := [], channel := none })
      else if op.queue.length < op.bound then
        (none, { op with buffer := [], queue := op.queue ++ [op.buffer] })
      else (some OReadyResult.Block, op)

/-- Mirror of `OutputPipe::ready`: flush the pending buffer, then take
the channel state (panicking on the `expect` when it is missing) and, if
it is the plain handle, suspend on `reserve_owned` — which errors once
the consumer is dropped (the taken sender is consumed, leaving `None`)
and otherwise stores the obtained permit. -/
def outputReady (op : OutputPipe) : OReadyResult × OutputPipe :=
  match outputFlush op with
  | (some r, op1) => (r, op1)
  | (none, op1) =>
    match op1.channel with
    | none => (OReadyResult.Crash "Missing sender channel state", op1)
    | some .Writable => (OReadyResult.Ok, op1)
    | some .Channel =>
      if op1.receiverDropped then
        (OReadyResult.Err "channel closed", { op1 with channel := none })
      else if op1.queue.length < op1.bound then
        (OReadyResult.Ok, { op1 with channel := some SenderState.Writable })
      else (OReadyResult.Block, op1)

/-- Folding `outputWrite` over a list of payloads, collecting the results
of the individual calls. -/
def writeAll (op : OutputPipe) : List (List Nat) → List WriteResult × OutputPipe
  | [] => ([], op)
  | b :: bs =>
    let r := outputWrite op b
    let rs := writeAll r.2 bs
    (r.1 :: rs.1, rs.2)

/-- Mirror of `MemoryOutputPipe`: the accumulated byte sequence. -/
structure MemoryOutputPipe where
  buffer : List Nat
deriving DecidableEq, Repr

/-- Mirror of `MemoryOutputPipe::write`: unconditionally append, report
the full length. -/
def memWrite (m : MemoryOutputPipe) (buf : List Nat) : Nat × MemoryOutputPipe :=
  (buf.length, { buffer := m.buffer ++ buf })

/-- Mirror of `MemoryOutputPipe::ready`: always immediately ready. -/
def memReady (_ : MemoryOutputPipe) : RdyResult := RdyResult.Ok

/-- Whole-pipe state for the pair created by `pipe(bound)`: the shared
bounded channel (queue, bound, producer-dropped flag) together with both
endpoints' private state and two ghost histories — every byte accepted by
the producer's `write` calls and every byte handed to the consumer's
destination buffers. -/
structure PipeWorld where
  bound : Nat
  queue : List (List Nat)
  disconnected : Bool
  inState : StreamState
  inBuf : List Nat
  readBytes : List Nat
  outBuf : List Nat
  sender : Option SenderState
  written : List Nat
deriving DecidableEq, Repr

/-- The consumer's `read` applied inside the whole-pipe state, reusing
`inputRead` and appending the bytes it wrote to the ghost history. -/
def applyRead (w : PipeWorld) (destLen : Nat) : PipeWorld :=
  let r := inputRead ⟨w.inState, w.inBuf, w.queue, w.disconnected⟩ destLen
  { w with
      inState := r.2.state, inBuf := r.2.buffer, queue := r.2.queue,
      readBytes := w.readBytes ++ r.1.1 }

/-- The state of a freshly created `pipe(bound)` pair. -/
def initWorld (bound : Nat) : PipeWorld :=
  ⟨bound, [], false, StreamState.Open, [], [], [], some SenderState.Channel, []⟩

/-- One step of either endpoint of the pipe pair, in any interleaving:
the producer's `write` (its three non-error outcomes), the two data
moving halves of the producer's `ready` (flush and reserve), dropping the
producer, and the consumer's `read` and `ready`.  Producer steps require
the producer not to have been dropped; the consumer endpoint is alive
throughout (it is the endpoint being read), so `try_send` never observes
a closed channel here. -/
inductive PStep : PipeWorld → PipeWorld → Prop
  | writePermit (w : PipeWorld) (buf : List Nat) (h : w.disconnected = false)
      (hs : w.sender = some SenderState.Writable) :
      PStep w
        { w with
            outBuf := [], queue := w.queue ++ [w.outBuf ++ buf],
            sender := some SenderState.Channel, written := w.written ++ buf }
  | writeOk (w : PipeWorld) (buf : List Nat) (h : w.disconnected = false)
      (hs : w.sender = some SenderState.Channel)
      (hroom : w.queue.length < w.bound) :
      PStep w
        { w with
            outBuf := [], queue := w.queue ++ [w.outBuf ++ buf],
            written := w.written ++ buf }
  | writeFull (w : PipeWorld) (buf : List Nat) (h : w.disconnected = false)
      (hs : w.sender = some SenderState.Channel)
      (hfull : ¬ w.queue.length < w.bound) :
      PStep w { w with outBuf := w.outBuf ++ buf, written := w.written ++ buf }
  | flushPermit (w : PipeWorld) (h : w.disconnected = false)
      (hs : w.sender = some SenderState.Writable) (hne : w.outBuf ≠ []) :
      PStep w
        { w with
            outBuf := [], queue := w.queue ++ [w.outBuf],
            sender := some SenderState.Channel }
  | flushChan (w : PipeWorld) (h : w.disconnected = false)
      (hs : w.sender = some SenderState.Channel) (hne : w.outBuf ≠ [])
      (hroom : w.queue.length < w.bound) :
      PStep w { w with outBuf := [], queue := w.queue ++ [w.outBuf] }
  | reserve (w : PipeWorld) (h : w.disconnected = false)
      (hs : w.sender = some SenderState.Channel)
      (hroom : w.queue.length < w.bound) :
      PStep w { w with sender := some SenderState.Writable }
  | dropProducer (w : PipeWorld) (h : w.disconnected = false) :
      PStep w { w with disconnected := true, sender := none }
  | readStep (w : PipeWorld) (destLen : Nat) : PStep w (applyRead w destLen)
  | readyChunk (w : PipeWorld) (c : List Nat) (rest : List (List Nat))
      (hq : w.queue = c :: rest) :
      PStep w { w with inBuf := w.inBuf ++ c, queue := rest }
  | readyClosed (w : PipeWorld) (hq : w.queue = []) (hd : w.disconnected = true) :
      PStep w { w with inState := StreamState.Closed }

/-- The pipe-pair states reachable from a freshly created pair. -/
inductive PReach : PipeWorld → Prop
  | init (b : Nat) : PReach (initWorld b)
  | step {w w' : PipeWorld} : PReach w → PStep w w' → PReach w'

/-! Helper lemmas (shared, not tied to a single claim). -/

/-- Once the channel slot of an output endpoint is `None`, every write in
any following sequence panics; none returns `Ok`. -/
lemma writeAll_noChannel :
    ∀ (bs : List (List Nat)) (op : OutputPipe), op.channel = none →
      ((writeAll op bs).1.all fun r => !r.isOk) = true := by
  intro bs
  induction bs with
  | nil => intro op _; rfl
  | cons b bs ih =>
    intro op h
    simp only [writeAll, outputWrite, h, List.all_cons, Bool.and_eq_true]
    exact ⟨rfl, ih _ rfl⟩

/-- A successful `OutputPipe::ready` leaves the pending buffer empty and a
held reservation. -/
lemma outputReady_ok_shape (op op' : OutputPipe)
    (h : outputReady op = (OReadyResult.Ok, op')) :
    op'.buffer = [] ∧ op'.channel = some SenderState.Writable := by
  obtain ⟨b0, ch, q, bd, rd⟩ := op
  rcases ch with _ | s
  · by_cases h0 : b0 = [] <;> simp [outputReady, outputFlush, h0] at h
  rcases rd
  · rcases s
    · by_cases h0 : b0 = []
      · subst h0
        have hr : outputReady ⟨[], some SenderState.Writable, q, bd, false⟩
            = (OReadyResult.Ok, ⟨[], some SenderState.Writable, q, bd, false⟩) := by
          simp [outputReady, outputFlush]
        rw [hr] at h
        obtain rfl : _ = op' := congrArg Prod.snd h
        exact ⟨rfl, rfl⟩
      · by_cases hq : q.length + 1 < bd
        · have hr : outputReady ⟨b0, some SenderState.Writable, q, bd, false⟩
              = (OReadyResult.Ok,
                ⟨[], some SenderState.Writable, q ++ [b0], bd, false⟩) := by
            simp [outputReady, outputFlush, h0, hq]
          rw [hr] at h
          obtain rfl : _ = op' := congrArg Prod.snd h
          exact ⟨rfl, rfl⟩
        · simp [outputReady, outputFlush, h0, hq] at h
    · by_cases h0 : b0 = []
      · subst h0
        by_cases hq : q.length < bd
        · have hr : outputReady ⟨[], some SenderState.Channel, q, bd, false⟩
              = (OReadyResult.Ok, ⟨[], some SenderState.Writable, q, bd, false⟩) := by
            simp [outputReady, outputFlush, hq]
          rw [hr] at h
          obtain rfl : _ = op' := congrArg Prod.snd h
          exact ⟨rfl, rfl⟩
        · simp [outputReady, outputFlush, hq] at h
      · by_cases hq : q.length < bd
        · by_cases hq2 : q.length + 1 < bd
          · have hr : outputReady ⟨b0, some SenderState.Channel, q, bd, false⟩
                = (OReadyResult.Ok,
                  ⟨[], some SenderState.Writable, q ++ [b0], bd, false⟩) := by
              simp [outputReady, outputFlush, h0, hq, hq2]
            rw [hr] at h
            obtain rfl : _ = op' := congrArg Prod.snd h
            exact ⟨rfl, rfl⟩
          · simp [outputReady, outputFlush, h0, hq, hq2] at h
        · simp [outputReady, outputFlush, h0, hq] at h
  · rcases s
    · by_cases h0 : b0 = []
      · subst h0
        have hr : outputReady ⟨[], some SenderState.Writable, q, bd, true⟩
            = (OReadyResult.Ok, ⟨[], some SenderState.Writable, q, bd, true⟩) := by
          simp [outputReady, outputFlush]
        rw [hr] at h
        obtain rfl : _ = op' := congrArg Prod.snd h
        exact ⟨rfl, rfl⟩
      · simp [outputReady, outputFlush, h0] at h
    · by_cases h0 : b0 = [] <;> simp [outputReady, outputFlush, h0] at h

/-- `WrappedRead::read` either leaves the state field unchanged or sets
it to `Closed`. -/
lemma wrappedRead_state_cases (wr : WrappedRead) (d : Nat) (p : PollRes) :
    (wrappedRead wr d p).2.state = wr.state ∨
    (wrappedRead wr d p).2.state = StreamState.Closed := by
  simp only [wrappedRead]
  split
  · exact Or.inl rfl
  split
  · exact Or.inl rfl
  split
  · exact Or.inl rfl
  split
  · split
    · exact Or.inr rfl
    · exact Or.inl rfl
    · split
      · exact Or.inr rfl
      · exact Or.inl rfl
  · exact Or.inl rfl

/-- `WrappedRead::ready` either leaves the state field unchanged or sets
it to `Closed`. -/
lemma wrappedReady_state_cases (wr : WrappedRead) (r : Except Unit (List Nat)) :
    (wrappedReady wr r).2.state = wr.state ∨
    (wrappedReady wr r).2.state = StreamState.Closed := by
  simp only [wrappedReady]
  split
  · exact Or.inl rfl
  split
  · exact Or.inl rfl
  · split
    · exact Or.inr rfl
    · exact Or.inl rfl

/-- `InputPipe::read` either leaves the state field unchanged or sets it
to `Closed`. -/
lemma inputRead_state_cases (ip : InputPipe) (d : Nat) :
    (inputRead ip d).2.state = ip.state ∨
    (inputRead ip d).2.state = StreamState.Closed := by
  simp only [inputRead]
  split
  · split
    · split
      · exact Or.inl rfl
      · exact Or.inl rfl
    · split
      · exact Or.inr rfl
      · exact Or.inl rfl
  · exact Or.inl rfl

/-- A completed `InputPipe::ready` either leaves the state field
unchanged or sets it to `Closed`. -/
lemma inputReady_state_cases (ip ip' : InputPipe) (h : inputReady ip = some ip') :
    ip'.state = ip.state ∨ ip'.state = StreamState.Closed := by
  unfold inputReady at h
  split at h
  · obtain rfl := Option.some.inj h
    exact Or.inl rfl
  · split at h
    · obtain rfl := Option.some.inj h
      exact Or.inr rfl
    · cases h

/-- One `WrappedRead` event preserves `Closed`. -/
lemma wstep_mono (wr : WrappedRead) (e : WEv)
    (h : wr.state = StreamState.Closed) :
    (wstep wr e).state = StreamState.Closed := by
  cases e with
  | rd d p =>
    rcases wrappedRead_state_cases wr d p with h2 | h2 <;>
      simp only [wstep] <;> rw [h2] <;> try exact h
  | rdy r =>
    rcases wrappedReady_state_cases wr r with h2 | h2 <;>
      simp only [wstep] <;> rw [h2] <;> try exact h

/-- One `InputPipe` event preserves `Closed`. -/
lemma istep_mono (ip : InputPipe) (e : IEv)
    (h : ip.state = StreamState.Closed) :
    (istep ip e).state = StreamState.Closed := by
  cases e with
  | rd d =>
    rcases inputRead_state_cases ip d with h2 | h2 <;>
      simp only [istep] <;> rw [h2] <;> try exact h
  | rdy =>
    simp only [istep]
    cases hq : inputReady ip with
    | none => exact h
    | some ip' =>
      rcases inputReady_state_cases ip ip' hq with h2 | h2 <;> rw [h2] <;>
        try exact h

/-- Any sequence of `WrappedRead` events preserves `Closed`. -/
lemma wrun_mono : ∀ (es : List WEv) (wr : WrappedRead),
    wr.state = StreamState.Closed → (wrun wr es).state = StreamState.Closed := by
  intro es
  induction es with
  | nil => exact fun wr h => h
  | cons e es ih => exact fun wr h => ih _ (wstep_mono wr e h)

/-- Any sequence of `InputPipe` events preserves `Closed`. -/
lemma irun_mono : ∀ (es : List IEv) (ip : InputPipe),
    ip.state = StreamState.Closed → (irun ip es).state = StreamState.Closed := by
  intro es
  induction es with
  | nil => exact fun ip h => h
  | cons e es ih => exact fun ip h => ih _ (istep_mono ip e h)

/-- `InputPipe::read` always reports the endpoint's state field as it is
after the call. -/
lemma inputRead_reports_state (ip : InputPipe) (d : Nat) :
    (inputRead ip d).1.2 = (inputRead ip d).2.state := by
  simp only [inputRead]
  split
  · split
    · split <;> rfl
    · split <;> rfl
  · rfl

/-- When undelivered pending bytes remain after the initial copy,
`WrappedRead::read` returns the copied prefix with the hard-coded state
value `Open`, whatever the endpoint's state field holds. -/
lemma wrappedRead_stale_open (wr : WrappedRead) (d : Nat) (p : PollRes)
    (h : wr.buffer.drop (min wr.buffer.length d) ≠ []) :
    (wrappedRead wr d p).1
      = RdResult.Ok (wr.buffer.take (min wr.buffer.length d))
          StreamState.Open := by
  simp only [wrappedRead]
  split
  · rfl
  · next hn => exact absurd h hn

/-! Theorems for the individual claims. -/

/-- Claim C1 (failing input): a `WrappedRead` in `Open` state with an
empty pending buffer, reading into a destination with room (length 4),
whose single poll of the underlying source returns `Poll::Pending`:
the call contributes 0 newly-read bytes but sets the state to `Closed`
and reports `Closed`, because the `bytes_read == 0` check in the source
also captures the `Pending` outcome (whose `ReadBuf` stays unfilled).
The claim — and the spec's single-poll design, which treats a pending
outcome as "no progress this attempt" — requires the state to stay
`Open`, with only a completed 0-byte read closing the stream. -/
theorem c1_pending_closes_stream :
    wrappedRead ⟨StreamState.Open, []⟩ 4 PollRes.pending
      = (RdResult.Ok [] StreamState.Closed, ⟨StreamState.Closed, []⟩) := rfl

/-- Claim C2: with the consumer endpoint dropped and the sender in the
plain-handle state, `OutputPipe::write` fails with the terminal
"pipe closed" error, and no write in any subsequent sequence of transfer
calls on that endpoint ever reports success. -/
theorem c2_consumer_dropped_terminal (op : OutputPipe) (buf : List Nat)
    (hrd : op.receiverDropped = true)
    (hch : op.channel = some SenderState.Channel) :
    (outputWrite op buf).1 = WriteResult.Err "pipe closed" ∧
    ∀ bs : List (List Nat),
      ((writeAll (outputWrite op buf).2 bs).1.all fun r => !r.isOk) = true := by
  have hw : outputWrite op buf
      = (WriteResult.Err "pipe closed", { op with buffer := [], channel := none }) := by
    simp [outputWrite, hch, hrd]
  refine ⟨by rw [hw], fun bs => ?_⟩
  rw [hw]
  exact writeAll_noChannel bs _ rfl

/-- Witness for C2 at a concrete endpoint and payload sequence. -/
theorem c2_consumer_dropped_terminal_witness :
    (outputWrite ⟨[], some SenderState.Channel, [], 4, true⟩ [1]).1
      = WriteResult.Err "pipe closed" ∧
    ((writeAll (outputWrite ⟨[], some SenderState.Channel, [], 4, true⟩ [1]).2
        [[2], [3]]).1.all fun r => !r.isOk) = true := by
  have h := c2_consumer_dropped_terminal
    ⟨[], some SenderState.Channel, [], 4, true⟩ [1] rfl rfl
  exact ⟨h.1, h.2 [[2], [3]]⟩

/-- Claim C5: after `OutputPipe::ready` returns successfully the pending
buffer is empty and a capacity reservation is held, so the immediately
following write of any payload no larger than the queue bound accepts the
full payload in one shot — the reservation is consumed to enqueue it
directly, with no suspension and no retry. -/
theorem c5_ready_then_write (op op' : OutputPipe) (buf : List Nat)
    (_hb : buf.length ≤ op.bound)
    (h : outputReady op = (OReadyResult.Ok, op')) :
    op'.buffer = [] ∧ op'.channel = some SenderState.Writable ∧
    outputWrite op' buf
      = (WriteResult.Ok buf.length,
        { op' with
            buffer := [], queue := op'.queue ++ [buf],
            channel := some SenderState.Channel }) := by
  obtain ⟨hbuf, hch⟩ := outputReady_ok_shape op op' h
  refine ⟨hbuf, hch, ?_⟩
  simp [outputWrite, hch, hbuf]

/-- Witness for C5 at a concrete endpoint and payload. -/
theorem c5_ready_then_write_witness :
    (⟨[], some SenderState.Writable, [], 2, false⟩ : OutputPipe).buffer = [] ∧
    (⟨[], some SenderState.Writable, [], 2, false⟩ : OutputPipe).channel
      = some SenderState.Writable ∧
    outputWrite ⟨[], some SenderState.Writable, [], 2, false⟩ [7, 8]
      = (WriteResult.Ok 2,
        ⟨[], some SenderState.Channel, [[7, 8]], 2, false⟩) := by
  have h := c5_ready_then_write ⟨[], some SenderState.Channel, [], 2, false⟩
    ⟨[], some SenderState.Writable, [], 2, false⟩ [7, 8] (by decide) rfl
  simpa using h

/-- Claim C8: a write that holds a reservation consumes it to send the
entire pending buffer (old contents plus the newly appended bytes),
always succeeds, reverts the sender to the plain-handle state and leaves
the pending buffer empty; and in every non-error case (reservation held,
plain-handle send accepted, or queue full) the full length of `buf` is
reported accepted. -/
theorem c8_write_reservation (op : OutputPipe) (buf : List Nat) :
    (op.channel = some SenderState.Writable →
      outputWrite op buf
        = (WriteResult.Ok buf.length,
          { op with
              buffer := [], queue := op.queue ++ [op.buffer ++ buf],
              channel := some SenderState.Channel })) ∧
    (op.channel = some SenderState.Writable ∨
        (op.channel = some SenderState.Channel ∧ op.receiverDropped = false) →
      (outputWrite op buf).1 = WriteResult.Ok buf.length) := by
  constructor
  · intro h
    simp [outputWrite, h]
  · rintro (h | ⟨h, hd⟩)
    · simp [outputWrite, h]
    · simp only [outputWrite, h, hd, if_false, Bool.false_eq_true]
      split <;> rfl

/-- Witness for C8 at concrete endpoints and payloads. -/
theorem c8_write_reservation_witness :
    outputWrite ⟨[1], some SenderState.Writable, [], 2, false⟩ [2, 3]
      = (WriteResult.Ok 2,
        ⟨[], some SenderState.Channel, [[1, 2, 3]], 2, false⟩) ∧
    (outputWrite ⟨[], some SenderState.Channel, [[0]], 1, false⟩ [4]).1
      = WriteResult.Ok 1 := by
  constructor
  · have h := (c8_write_reservation
      ⟨[1], some SenderState.Writable, [], 2, false⟩ [2, 3]).1 rfl
    simpa using h
  · exact (c8_write_reservation ⟨[], some SenderState.Channel, [[0]], 1, false⟩
      [4]).2 (Or.inr ⟨rfl, rfl⟩)

/-- Claim C9: the Memory Output Sink appends every written payload to its
internal byte sequence, reports the full length accepted and cannot fail;
writing "a", "b", "c" (byte values 97, 98, 99) in three calls accumulates
"abc"; and `ready()` always resolves immediately with success. -/
theorem c9_memory_sink :
    (∀ (m : MemoryOutputPipe) (buf : List Nat),
      memWrite m buf = (buf.length, ⟨m.buffer ++ buf⟩)) ∧
    (memWrite (memWrite (memWrite ⟨[]⟩ [97]).2 [98]).2 [99]).2.buffer
      = [97, 98, 99] ∧
    ∀ m : MemoryOutputPipe, memReady m = RdyResult.Ok := by
  exact ⟨fun m buf => rfl, rfl, fun m => rfl⟩

/-- Claim C10: when `OutputPipe::write` returns the terminal "pipe closed"
error the failure is not atomic — the bytes accumulated in the pending
buffer are discarded and the channel slot is left empty (`None`) — and
every subsequent `write` or `ready` call on the endpoint panics on the
missing-channel `expect` instead of returning an error. -/
theorem c10_write_error_poisons (op : OutputPipe) (buf : List Nat)
    (op' : OutputPipe)
    (h : outputWrite op buf = (WriteResult.Err "pipe closed", op')) :
    op'.buffer = [] ∧ op'.channel = none ∧
    (∀ b : List Nat,
      outputWrite op' b = (WriteResult.Crash "Missing channel state", op')) ∧
    outputReady op' = (OReadyResult.Crash "Missing sender channel state", op') := by
  obtain ⟨b0, ch, q, bd, rd⟩ := op
  rcases ch with _ | s
  · simp [outputWrite] at h
  · rcases s <;> rcases rd <;> simp [outputWrite] at h
    · split at h <;> simp at h
    · obtain rfl := h
      exact ⟨rfl, rfl, fun b => rfl, rfl⟩

/-- Witness for C10 at a concrete endpoint and payloads. -/
theorem c10_write_error_poisons_witness :
    (⟨[], none, [], 1, true⟩ : OutputPipe).buffer = [] ∧
    (⟨[], none, [], 1, true⟩ : OutputPipe).channel = none ∧
    outputWrite ⟨[], none, [], 1, true⟩ [5]
      = (WriteResult.Crash "Missing channel state", ⟨[], none, [], 1, true⟩) ∧
    outputReady ⟨[], none, [], 1, true⟩
      = (OReadyResult.Crash "Missing sender channel state",
        ⟨[], none, [], 1, true⟩) := by
  have h := c10_write_error_poisons ⟨[9], some SenderState.Channel, [], 1, true⟩
    [1] ⟨[], none, [], 1, true⟩ rfl
  exact ⟨h.1, h.2.1, h.2.2.1 [5], h.2.2.2⟩

/-- Claim C3 (counterexample): the returned state of a read is not always
the endpoint's current state value.  Reachable trace on a `WrappedRead`:
a `ready()` reads the bytes `[7, 8]`, a second `ready()` hits
end-of-stream and sets the state field to `Closed` while both bytes are
still pending; the next read into a 1-byte destination then reports
`Open` — the hard-coded `StreamState::Open` of the early return — although
the endpoint's state is `Closed`. -/
theorem c3_counterexample :
    (wrun ⟨StreamState.Open, []⟩
        [WEv.rdy (Except.ok [7, 8]), WEv.rdy (Except.ok [])]).state
      = StreamState.Closed ∧
    (wrappedRead
        (wrun ⟨StreamState.Open, []⟩
          [WEv.rdy (Except.ok [7, 8]), WEv.rdy (Except.ok [])])
        1 PollRes.pending).1
      = RdResult.Ok [7] StreamState.Open := ⟨rfl, rfl⟩

/-- Claim C3 (amended): for both input endpoints and any sequence of
read/ready calls the stream state field is monotonic — once `Closed` it
never reverts to `Open`.  `InputPipe::read` always returns the endpoint's
current (post-call) state value alongside its byte count, but
`WrappedRead::read` does not: whenever undelivered pending bytes remain
after the initial copy it returns the hard-coded value `Open`, regardless
of the endpoint's state field. -/
theorem c3_amended :
    (∀ (wr : WrappedRead) (es : List WEv),
      wr.state = StreamState.Closed →
      (wrun wr es).state = StreamState.Closed) ∧
    (∀ (ip : InputPipe) (es : List IEv),
      ip.state = StreamState.Closed →
      (irun ip es).state = StreamState.Closed) ∧
    (∀ (ip : InputPipe) (d : Nat),
      (inputRead ip d).1.2 = (inputRead ip d).2.state) ∧
    (∀ (wr : WrappedRead) (d : Nat) (p : PollRes),
      wr.buffer.drop (min wr.buffer.length d) ≠ [] →
      (wrappedRead wr d p).1
        = RdResult.Ok (wr.buffer.take (min wr.buffer.length d))
            StreamState.Open) :=
  ⟨fun wr es h => wrun_mono es wr h,
   fun ip es h => irun_mono es ip h,
   fun ip d => inputRead_reports_state ip d,
   fun wr d p h => wrappedRead_stale_open wr d p h⟩

/-- Witness for the amended C3 at concrete endpoints and call
sequences. -/
theorem c3_amended_witness :
    (wrun ⟨StreamState.Closed, [5]⟩ [WEv.rd 3 PollRes.pending]).state
      = StreamState.Closed ∧
    (irun ⟨StreamState.Closed, [], [], true⟩ [IEv.rd 2, IEv.rdy]).state
      = StreamState.Closed ∧
    (inputRead ⟨StreamState.Open, [1], [], false⟩ 2).1.2
      = (inputRead ⟨StreamState.Open, [1], [], false⟩ 2).2.state ∧
    (wrappedRead ⟨StreamState.Closed, [7, 8]⟩ 1 PollRes.pending).1
      = RdResult.Ok [7] StreamState.Open :=
  ⟨c3_amended.1 _ _ rfl,
   c3_amended.2.1 _ _ rfl,
   c3_amended.2.2.1 _ 2,
   c3_amended.2.2.2 ⟨StreamState.Closed, [7, 8]⟩ 1 PollRes.pending
     (by decide)⟩

/-- Claim C6 (counterexample): the consumer can report `Closed` while
undelivered bytes remain.  Reachable trace: the producer sent `[1, 2]`
and was dropped; the consumer's first `ready()` moves the chunk into the
pending buffer, its second `ready()` observes the disconnect and sets the
state to `Closed` while both bytes are still pending; the next read into
a 1-byte destination then returns byte `1` with reported state `Closed`
although byte `2` is still undelivered in the pending buffer. -/
theorem c6_counterexample :
    (inputRead (irun ⟨StreamState.Open, [], [[1, 2]], true⟩
        [IEv.rdy, IEv.rdy]) 1).1
      = ([1], StreamState.Closed) ∧
    (inputRead (irun ⟨StreamState.Open, [], [[1, 2]], true⟩
        [IEv.rdy, IEv.rdy]) 1).2.buffer
      = [2] := ⟨rfl, rfl⟩

/-- Claim C6 (amended): the consumer's state becomes `Closed` only after
the producer endpoint has been dropped and every channel chunk has been
received out of the channel; on the `read` path the transition
additionally happens only when the pending buffer has been fully drained
into the destination, but after a `ready()` call observes the disconnect
the endpoint may report `Closed` while undelivered bytes remain in its
pending buffer. -/
theorem c6_amended :
    (∀ (ip : InputPipe) (d : Nat),
      ip.state = StreamState.Open →
      (inputRead ip d).2.state = StreamState.Closed →
      ip.disconnected = true ∧ ip.queue = [] ∧
        (inputRead ip d).2.buffer = []) ∧
    (∀ (ip ip' : InputPipe),
      ip.state = StreamState.Open → inputReady ip = some ip' →
      ip'.state = StreamState.Closed →
      ip.disconnected = true ∧ ip.queue = []) := by
  constructor
  · intro ip d hopen hcl
    simp only [inputRead] at hcl ⊢
    split at hcl
    · next hk =>
        split at hcl
        · split at hcl
          · rw [hopen] at hcl; cases hcl
          · rw [hopen] at hcl; cases hcl
        · next hq =>
            split at hcl
            · next hd =>
                refine ⟨hd, hq, ?_⟩
                simp only [hk, hq, hd, if_true, ite_true]
                have : min ip.buffer.length d = ip.buffer.length := by omega
                rw [this]
                exact List.drop_length _
            · rw [hopen] at hcl; cases hcl
    · rw [hopen] at hcl; cases hcl
  · intro ip ip' hopen hr hcl
    simp only [inputReady] at hr
    split at hr
    · obtain rfl := Option.some.inj hr
      rw [hopen] at hcl; cases hcl
    · next hq =>
        split at hr
        · next hd => exact ⟨hd, hq⟩
        · cases hr

/-- Witness for the amended C6 at concrete endpoints. -/
theorem c6_amended_witness :
    ((⟨StreamState.Open, [], [], true⟩ : InputPipe).disconnected = true ∧
      (⟨StreamState.Open, [], [], true⟩ : InputPipe).queue = [] ∧
      (inputRead ⟨StreamState.Open, [], [], true⟩ 1).2.buffer = []) ∧
    ((⟨StreamState.Open, [], [], true⟩ : InputPipe).disconnected = true ∧
      (⟨StreamState.Open, [], [], true⟩ : InputPipe).queue = []) :=
  ⟨c6_amended.1 ⟨StreamState.Open, [], [], true⟩ 1 rfl rfl,
   c6_amended.2 ⟨StreamState.Open, [], [], true⟩
     ⟨StreamState.Closed, [], [], true⟩ rfl rfl rfl⟩

/-- Claim C4: an `InputPipe` read drains the pending buffer into the
destination first; when room remains and the channel yields a chunk
strictly larger than the remaining room, the call fills the room with the
chunk's prefix, stashes the chunk's unconsumed suffix as the new pending
buffer, and reports the full destination length transferred with state
`Open`.  The reachability invariant (a `Closed` state implies a
disconnected, fully drained channel) is taken as a hypothesis. -/
theorem c4_input_read_big_chunk (ip : InputPipe) (d : Nat)
    (msg : List Nat) (rest : List (List Nat))
    (hInv : ip.state = StreamState.Closed →
      ip.disconnected = true ∧ ip.queue = [])
    (hq : ip.queue = msg :: rest)
    (hroom : ip.buffer.length < d)
    (hbig : d - ip.buffer.length < msg.length) :
    inputRead ip d
      = ((ip.buffer ++ msg.take (d - ip.buffer.length), StreamState.Open),
        ⟨StreamState.Open, msg.drop (d - ip.buffer.length), rest,
          ip.disconnected⟩) ∧
    (ip.buffer ++ msg.take (d - ip.buffer.length)).length = d := by
  have hOpen : ip.state = StreamState.Open := by
    cases hs : ip.state
    · rfl
    · obtain ⟨-, hq0⟩ := hInv hs
      rw [hq0] at hq
      cases hq
  have hmin : min ip.buffer.length d = ip.buffer.length :=
    Nat.min_eq_left (Nat.le_of_lt hroom)
  have hnl : ¬ msg.length < d - ip.buffer.length := by omega
  constructor
  · simp [inputRead, hmin, hq, hroom, hnl, List.take_length,
      List.drop_length, hOpen]
  · rw [List.length_append, List.length_take]
    omega

/-- Witness for C4 at a concrete endpoint, destination and chunk. -/
theorem c4_input_read_big_chunk_witness :
    inputRead ⟨StreamState.Open, [1], [[2, 3, 4]], false⟩ 2
      = (([1, 2], StreamState.Open),
        ⟨StreamState.Open, [3, 4], [], false⟩) ∧
    ([1, 2] : List Nat).length = 2 :=
  c4_input_read_big_chunk ⟨StreamState.Open, [1], [[2, 3, 4]], false⟩ 2
    [2, 3, 4] [] (by decide) rfl (by decide) (by decide)

/-- `InputPipe::read` conserves bytes: what it writes to the destination,
followed by what stays pending and what is still queued, is exactly what
was pending and queued before the call. -/
lemma inputRead_conserve (ip : InputPipe) (d : Nat) :
    (inputRead ip d).1.1 ++ (inputRead ip d).2.buffer
        ++ ((inputRead ip d).2.queue).flatten
      = ip.buffer ++ ip.queue.flatten := by
  by_cases hk : min ip.buffer.length d < d
  · have hmin : min ip.buffer.length d = ip.buffer.length := by omega
    have hk2 : ip.buffer.length < d := by omega
    cases hq : ip.queue with
    | nil =>
      by_cases hd : ip.disconnected <;>
        simp [inputRead, hk2, hq, hd, hmin, List.take_length, List.drop_length]
    | cons msg rest =>
      by_cases hm : msg.length < d - ip.buffer.length
      · simp [inputRead, hk2, hq, hm, hmin, List.take_length, List.drop_length]
      · simp only [inputRead, hk2, hq, hmin, hm, if_true, ite_true, if_false,
          ite_false, List.take_length, List.drop_length, List.flatten_cons,
          List.nil_append]
        have hs : msg.take (d - ip.buffer.length)
            ++ (msg.drop (d - ip.buffer.length) ++ rest.flatten)
            = msg ++ rest.flatten := by
          rw [← List.append_assoc, List.take_append_drop]
        simp [List.append_assoc, hs]
  · simp [inputRead, hk, List.take_append_drop]

/-- Claim C7: over every reachable interleaving of producer and consumer
calls on a pipe pair, the bytes delivered to the consumer's destination
buffers, followed by the consumer's pending buffer, the queued chunks and
the producer's pending buffer, are exactly the bytes accepted by the
producer's write calls — in order, with none dropped or duplicated.  In
particular, once all buffers have drained, the byte sequence observed at
the input side equals the byte sequence written through the output
side. -/
theorem c7_round_trip (w : PipeWorld) (h : PReach w) :
    w.readBytes ++ w.inBuf ++ w.queue.flatten ++ w.outBuf = w.written := by
  induction h with
  | init b => rfl
  | @step w w' hr hstep ih =>
    cases hstep with
    | writePermit buf hdis hs =>
      simp only [List.flatten_append, List.flatten_cons, List.flatten_nil,
        List.append_nil, List.append_assoc] at ih ⊢
      rw [← ih]
      simp [List.append_assoc]
    | writeOk buf hdis hs hroom =>
      simp only [List.flatten_append, List.flatten_cons, List.flatten_nil,
        List.append_nil, List.append_assoc] at ih ⊢
      rw [← ih]
      simp [List.append_assoc]
    | writeFull buf hdis hs hfull =>
      simp only [List.append_assoc] at ih ⊢
      rw [← ih]
      simp [List.append_assoc]
    | flushPermit hdis hs hne =>
      simp only [List.flatten_append, List.flatten_cons, List.flatten_nil,
        List.append_nil, List.append_assoc] at ih ⊢
      rw [← ih]
    | flushChan hdis hs hne hroom =>
      simp only [List.flatten_append, List.flatten_cons, List.flatten_nil,
        List.append_nil, List.append_assoc] at ih ⊢
      rw [← ih]
    | reserve hdis hs hroom => exact ih
    | dropProducer hdis => exact ih
    | readStep d =>
      have hc := inputRead_conserve ⟨w.inState, w.inBuf, w.queue, w.disconnected⟩ d
      simp only [applyRead]
      calc
        w.readBytes ++ (inputRead ⟨w.inState, w.inBuf, w.queue, w.disconnected⟩ d).1.1
            ++ (inputRead ⟨w.inState, w.inBuf, w.queue, w.disconnected⟩ d).2.buffer
            ++ ((inputRead ⟨w.inState, w.inBuf, w.queue, w.disconnected⟩ d).2.queue).flatten
            ++ w.outBuf
            = w.readBytes
              ++ ((inputRead ⟨w.inState, w.inBuf, w.queue, w.disconnected⟩ d).1.1
                ++ (inputRead ⟨w.inState, w.inBuf, w.queue, w.disconnected⟩ d).2.buffer
                ++ ((inputRead ⟨w.inState, w.inBuf, w.queue, w.disconnected⟩ d).2.queue).flatten)
              ++ w.outBuf := by
              simp [List.append_assoc]
        _ = w.readBytes ++ (w.inBuf ++ w.queue.flatten) ++ w.outBuf := by rw [hc]
        _ = w.written := by
              rw [← ih]
              simp [List.append_assoc]
    | readyChunk c rest hq =>
      rw [hq] at ih
      simp only [List.flatten_cons, List.append_assoc] at ih ⊢
      rw [← ih]
    | readyClosed hq hd => exact ih

/-- Witness for C7: a concrete reachable interleaving — one plain-handle
write of the byte 65 followed by one consumer read into a 1-byte
destination — after which the ghost histories agree. -/
theorem c7_round_trip_witness :
    (applyRead ⟨1, [[65]], false, StreamState.Open, [], [], [],
        some SenderState.Channel, [65]⟩ 1).readBytes
      ++ (applyRead ⟨1, [[65]], false, StreamState.Open, [], [], [],
        some SenderState.Channel, [65]⟩ 1).inBuf
      ++ ((applyRead ⟨1, [[65]], false, StreamState.Open, [], [], [],
        some SenderState.Channel, [65]⟩ 1).queue).flatten
      ++ (applyRead ⟨1, [[65]], false, StreamState.Open, [], [], [],
        some SenderState.Channel, [65]⟩ 1).outBuf
      = (applyRead ⟨1, [[65]], false, StreamState.Open, [], [], [],
        some SenderState.Channel, [65]⟩ 1).written :=
  c7_round_trip _
    (PReach.step
      (PReach.step (PReach.init 1)
        (PStep.writeOk (initWorld 1) [65] rfl rfl (by decide)))
      (PStep.readStep
        ⟨1, [[65]], false, StreamState.Open, [], [], [],
          some SenderState.Channel, [65]⟩ 1))

end PipeSpec
